import Mathlib

/-!
Verification development for the media asset store of the ALPHA repository
(`src/arthur/media_db.py`, HTTP boundary in `src/arthur/media_api.py`).

The store keeps a single `assets` table (a list of `MediaAsset` rows).  All
external collaborators (filesystem, PIL image decoding, the CLIP embedding
provider, the ffmpeg frame extractor, the ffprobe duration probe, the uuid
generator and the clock) are modelled as an explicit environment record
`MediaEnv`; the `uuid.uuid4()` draw is modelled as an external stream of ids
indexed by a per-database counter `nextId` (ids are fresh exactly when the
stream entry is not already present, which is the uuid contract).  Fallible
Python code (raised exceptions) is modelled with `Except`.  Bytes are
modelled as `List Nat`; embedding vectors as `List Float` (they are only
ever constructed and carried, never compared numerically).
-/

/-- Error taxonomy of the store: `fileNotFound` models Python
`FileNotFoundError`, `valueError` models `ValueError`, `externalError`
models collaborator exceptions such as PIL's `UnidentifiedImageError`. -/
inductive MediaErr where
  | fileNotFound (msg : String)
  | valueError (msg : String)
  | externalError (msg : String)

/-- One row of the `assets` table, mirroring the `MediaAsset` LanceModel
schema of `media_db.py` field for field. -/
structure MediaAsset where
  id : String
  filename : String
  image : Option (List Nat)
  video : Option (List Nat)
  thumbnail : Option (List Nat)
  vector : List Float
  source : String
  generation_prompt : Option String
  generation_model : Option String
  generation_time_seconds : Option Float
  generation_cost_usd : Option Float
  width : Option Int
  height : Option Int
  duration_seconds : Option Float
  file_size_bytes : Option Int
  format : Option String
  media_type : String
  content_type : Option String
  subjects : List String
  style_tags : List String
  quality_rating : Option Int
  quality_notes : Option String
  episode_assignments : List Int
  use_count : Int
  created_at : String
  last_used_at : Option String

/-- The database state: the `assets` table plus the position in the external
uuid stream. The `projects` table is created by `_init_tables` but no
operation touches it, so it is not part of the state. -/
structure MediaDatabase where
  assets : List MediaAsset
  nextId : Nat

/-- A fresh connection: `_init_tables` creates an empty `assets` table. -/
def MediaDatabase.empty : MediaDatabase := { assets := [], nextId := 0 }

/-- External collaborators of the store, as pure functions.
`readFile p = none` models a nonexistent path (the `path.exists()` check);
`decodeImage` models `PIL.Image.open` returning the `(width, height)` size or
failing on undecodable bytes; `encodeImage` models the CLIP embedding of a
decodable image's bytes; `extractThumbnail` models `_extract_video_thumbnail`
(best effort, `none` on failure); `probeDuration` models the ffprobe call
(best effort); `listDir d recursive` models `Path(d).glob(pattern)` filtered
by `is_file()`, `none` when the directory does not exist; `genId` is the
uuid4 stream; `now` is `datetime.now().isoformat()`. -/
structure MediaEnv where
  readFile : String → Option (List Nat)
  decodeImage : List Nat → Option (Int × Int)
  encodeImage : List Nat → List Float
  extractThumbnail : String → Option (List Nat)
  probeDuration : String → Option Float
  listDir : String → Bool → Option (List String)
  genId : Nat → String
  now : String

/-- Split a character list at every occurrence of `c` (like `str.split`). -/
def splitOnChar (c : Char) : List Char → List (List Char)
  | [] => [[]]
  | x :: xs =>
    match splitOnChar c xs with
    | [] => if x = c then [[], []] else [[x]]
    | h :: t => if x = c then [] :: h :: t else (x :: h) :: t

/-- Index of the last `'.'` in a character list (Python `str.rfind('.')`). -/
def lastDotIndex : List Char → Option Nat
  | [] => none
  | c :: cs =>
    match lastDotIndex cs with
    | some j => some (j + 1)
    | none => if c = '.' then some 0 else none

/-- The final path component, `pathlib.PurePath.name`: the last nonempty
`/`-separated component. -/
def pathNameChars (p : String) : List Char :=
  ((splitOnChar '/' p.toList).filter (fun s => !s.isEmpty)).getLastD []

/-- `pathlib.PurePath.suffix` on a bare name: CPython computes
`i = name.rfind('.')` and returns `name[i:]` when `0 < i < len(name) - 1`,
else the empty suffix. -/
def suffixOfName (name : List Char) : List Char :=
  match lastDotIndex name with
  | some i => if 0 < i ∧ i + 1 < name.length then name.drop i else []
  | none => []

/-- `Path(p).suffix.lower()` as used by `import_directory` (keeps the dot). -/
def importSuffix (p : String) : String :=
  String.mk ((suffixOfName (pathNameChars p)).map Char.toLower)

/-- `path.suffix.lower().lstrip('.')` as used by `add_image`/`add_video`. -/
def fmtOfPath (p : String) : String :=
  String.mk (((suffixOfName (pathNameChars p)).map Char.toLower).dropWhile (fun c => c = '.'))

/-- The optional ingestion arguments shared by `add_image` and `add_video`
(the keyword parameters plus the `**kwargs` fields the source reads). -/
structure IngestArgs where
  generation_prompt : Option String
  generation_model : Option String
  content_type : Option String
  subjects : Option (List String)
  style_tags : Option (List String)
  quality_rating : Option Int
  episode_assignments : Option (List Int)
  generation_time_seconds : Option Float
  generation_cost_usd : Option Float
  quality_notes : Option String
  width : Option Int
  height : Option Int

/-- All ingestion arguments left at their Python defaults (`None`). -/
def defaultArgs : IngestArgs :=
  { generation_prompt := none, generation_model := none, content_type := none,
    subjects := none, style_tags := none, quality_rating := none,
    episode_assignments := none, generation_time_seconds := none,
    generation_cost_usd := none, quality_notes := none,
    width := none, height := none }

/-- `MediaDatabase.add_image`: existence check, read bytes, decode for
width/height (PIL failure propagates), CLIP-embed, normalize the format
(`jpg` becomes `jpeg`), assemble the row with `image` set and `video` null,
append it and return the fresh id. -/
def MediaDatabase.add_image (db : MediaDatabase) (env : MediaEnv)
    (image_path : String) (src : String) (args : IngestArgs) :
    Except MediaErr (String × MediaDatabase) :=
  match env.readFile image_path with
  | none => .error (.fileNotFound ("Image not found: " ++ image_path))
  | some image_bytes =>
    match env.decodeImage image_bytes with
    | none => .error (.externalError "cannot identify image file")
    | some wh =>
      let embedding := env.encodeImage image_bytes
      let fmt0 := fmtOfPath image_path
      let fmt := if fmt0 = "jpg" then "jpeg" else fmt0
      let asset_id := env.genId db.nextId
      let a : MediaAsset :=
        { id := asset_id
          filename := String.mk (pathNameChars image_path)
          image := some image_bytes
          video := none
          thumbnail := none
          vector := embedding
          source := src
          generation_prompt := args.generation_prompt
          generation_model := args.generation_model
          generation_time_seconds := args.generation_time_seconds
          generation_cost_usd := args.generation_cost_usd
          width := some wh.1
          height := some wh.2
          duration_seconds := none
          file_size_bytes := some (image_bytes.length : Int)
          format := some fmt
          media_type := "image"
          content_type := args.content_type
          subjects := args.subjects.getD []
          style_tags := args.style_tags.getD []
          quality_rating := args.quality_rating
          quality_notes := args.quality_notes
          episode_assignments := args.episode_assignments.getD []
          use_count := 0
          created_at := env.now
          last_used_at := none }
      .ok (asset_id, { assets := db.assets ++ [a], nextId := db.nextId + 1 })

/-- `MediaDatabase.add_video`: existence check, read bytes, best-effort
thumbnail extraction; with no thumbnail the embedding defaults to the
all-zero 512-vector and ingestion proceeds (only a warning is logged); with
a thumbnail the decoded frame is CLIP-embedded (a decode failure
propagates).  Duration is best effort.  The row has `video` set, `image`
null and `media_type` "video". -/
def MediaDatabase.add_video (db : MediaDatabase) (env : MediaEnv)
    (video_path : String) (src : String) (args : IngestArgs) :
    Except MediaErr (String × MediaDatabase) :=
  match env.readFile video_path with
  | none => .error (.fileNotFound ("Video not found: " ++ video_path))
  | some video_bytes =>
    let duration := env.probeDuration video_path
    let fmt := fmtOfPath video_path
    let asset_id := env.genId db.nextId
    let finish := fun (vec : List Float) (thumb : Option (List Nat)) =>
      let a : MediaAsset :=
        { id := asset_id
          filename := String.mk (pathNameChars video_path)
          image := none
          video := some video_bytes
          thumbnail := thumb
          vector := vec
          source := src
          generation_prompt := args.generation_prompt
          generation_model := args.generation_model
          generation_time_seconds := args.generation_time_seconds
          generation_cost_usd := args.generation_cost_usd
          width := args.width
          height := args.height
          duration_seconds := duration
          file_size_bytes := some (video_bytes.length : Int)
          format := some fmt
          media_type := "video"
          content_type := args.content_type
          subjects := args.subjects.getD []
          style_tags := args.style_tags.getD []
          quality_rating := args.quality_rating
          quality_notes := args.quality_notes
          episode_assignments := args.episode_assignments.getD []
          use_count := 0
          created_at := env.now
          last_used_at := none }
      (asset_id, ({ assets := db.assets ++ [a], nextId := db.nextId + 1 } : MediaDatabase))
    match env.extractThumbnail video_path with
    | none => .ok (finish (List.replicate 512 (0.0 : Float)) none)
    | some tb =>
      match env.decodeImage tb with
      | none => .error (.externalError "cannot identify image file")
      | some _ => .ok (finish (env.encodeImage tb) (some tb))

/-- `rate_asset`: reject a rating outside `[1, 10]` with a `ValueError`
before touching the table, otherwise update `quality_rating` and
`quality_notes` on every row whose id matches exactly. -/
def MediaDatabase.rate_asset (db : MediaDatabase) (asset_id : String)
    (rating : Int) (notes : Option String) : Except MediaErr MediaDatabase :=
  if 1 ≤ rating ∧ rating ≤ 10 then
    .ok { db with assets := db.assets.map (fun a =>
      if a.id = asset_id then
        { a with quality_rating := some rating, quality_notes := notes }
      else a) }
  else .error (.valueError "Rating must be between 1 and 10")

/-- `assign_to_episode`: look up the first row with the given id (raising
`ValueError` when there is none), and when `episode` is not already a member
of its `episode_assignments`, write that list with `episode` appended back to
every row with the id.  No episode-range check happens at this layer. -/
def MediaDatabase.assign_to_episode (db : MediaDatabase) (asset_id : String)
    (episode : Int) : Except MediaErr MediaDatabase :=
  match (db.assets.filter (fun b => decide (b.id = asset_id))).head? with
  | none => .error (.valueError ("Asset not found: " ++ asset_id))
  | some a =>
    if episode ∈ a.episode_assignments then .ok db
    else
      .ok { db with assets := db.assets.map (fun b =>
        if b.id = asset_id then
          { b with episode_assignments := a.episode_assignments ++ [episode] }
        else b) }

/-- `get_asset`: the first row with the given id, or `None`. -/
def MediaDatabase.get_asset (db : MediaDatabase) (asset_id : String) :
    Option MediaAsset :=
  (db.assets.filter (fun b => decide (b.id = asset_id))).head?

/-- `get_image_bytes`: the asset's `image` field, or `None` for an unknown
id (the field itself may be null). -/
def MediaDatabase.get_image_bytes (db : MediaDatabase) (asset_id : String) :
    Option (List Nat) :=
  match db.get_asset asset_id with
  | none => none
  | some a => a.image

/-- `get_video_bytes`: the asset's `video` field, or `None` for an unknown
id. -/
def MediaDatabase.get_video_bytes (db : MediaDatabase) (asset_id : String) :
    Option (List Nat) :=
  match db.get_asset asset_id with
  | none => none
  | some a => a.video

/-- `export_asset`: look the asset up (`ValueError` when unknown), pick its
content by `media_type`, fail when the content is null, otherwise return the
bytes that the source writes to the output file. -/
def MediaDatabase.export_asset (db : MediaDatabase) (asset_id : String) :
    Except MediaErr (List Nat) :=
  match db.get_asset asset_id with
  | none => .error (.valueError ("Asset not found: " ++ asset_id))
  | some a =>
    let content := if a.media_type = "image" then a.image else a.video
    match content with
    | none => .error (.valueError ("Asset " ++ asset_id ++ " has no content"))
    | some c => .ok c

/-- The image extensions `import_directory` classifies by. -/
def image_extensions : List String := [".png", ".jpg", ".jpeg", ".webp", ".gif"]

/-- The video extensions `import_directory` classifies by. -/
def video_extensions : List String := [".mp4", ".mov", ".webm", ".avi"]

/-- One iteration of the `import_directory` loop body: classify the file by
its lowercased suffix, ingest it with the shared tags, count it on success,
and on any exception log and skip it (the `try`/`except Exception` wraps the
ingestion call and the increment). -/
def importStep (env : MediaEnv) (src : String) (ct : Option String)
    (subj st : Option (List String)) (acc : Nat × MediaDatabase)
    (f : String) : Nat × MediaDatabase :=
  if importSuffix f ∈ image_extensions then
    match acc.2.add_image env f src
        { defaultArgs with content_type := ct, subjects := subj, style_tags := st } with
    | .ok r => (acc.1 + 1, r.2)
    | .error _ => acc
  else if importSuffix f ∈ video_extensions then
    match acc.2.add_video env f src
        { defaultArgs with content_type := ct, subjects := subj, style_tags := st } with
    | .ok r => (acc.1 + 1, r.2)
    | .error _ => acc
  else acc

/-- The `import_directory` file loop. -/
def importGo (env : MediaEnv) (src : String) (ct : Option String)
    (subj st : Option (List String)) :
    List String → Nat × MediaDatabase → Nat × MediaDatabase
  | [], acc => acc
  | f :: t, acc => importGo env src ct subj st t (importStep env src ct subj st acc f)

/-- `import_directory`: fail with `FileNotFoundError` when the directory does
not exist, otherwise run the per-file loop over the enumerated files starting
from a zero count and return the final count and state. -/
def MediaDatabase.import_directory (db : MediaDatabase) (env : MediaEnv)
    (dir_path : String) (src : String) (recursive : Bool) (ct : Option String)
    (subj st : Option (List String)) : Except MediaErr (Nat × MediaDatabase) :=
  match env.listDir dir_path recursive with
  | none => .error (.fileNotFound ("Directory not found: " ++ dir_path))
  | some files => .ok (importGo env src ct subj st files (0, db))

/-- Whether ingesting `f` would succeed, as a function of the collaborators
alone (ingestion success never depends on the database state): an image file
must exist and decode; a video file must exist, and when a thumbnail is
extracted that thumbnail must decode.  Files of other extensions are
skipped, never counted. -/
def ingestOk (env : MediaEnv) (f : String) : Bool :=
  if importSuffix f ∈ image_extensions then
    match env.readFile f with
    | none => false
    | some b => (env.decodeImage b).isSome
  else if importSuffix f ∈ video_extensions then
    match env.readFile f with
    | none => false
    | some _ =>
      match env.extractThumbnail f with
      | none => true
      | some tb => (env.decodeImage tb).isSome
  else false

/-- The record returned by `stats()`. -/
structure Stats where
  total_assets : Nat
  images : Nat
  videos : Nat
  total_size_mb : Float
  sources : List (String × Nat)
  avg_quality : Option Float
  rated_count : Nat
  unrated_count : Nat

/-- Increment the histogram count of one key. -/
def bumpCount (k : String) : List (String × Nat) → List (String × Nat)
  | [] => [(k, 1)]
  | (s, n) :: t => if s = k then (s, n + 1) :: t else (s, n) :: bumpCount k t

/-- `value_counts().to_dict()` as an association list (the dict's iteration
order is irrelevant to every caller). -/
def histogram (ks : List String) : List (String × Nat) :=
  ks.foldl (fun h k => bumpCount k h) []

/-- Python `round(x, 1)` (approximated with round-half-away rounding; the
source value is never compared exactly). -/
def round1 (x : Float) : Float := (x * 10).round / 10

/-- Python `round(x, 2)` (same approximation). -/
def round2 (x : Float) : Float := (x * 100).round / 100

/-- `stats()`: the empty-table early return, else one full scan producing the
counts, the size sum, the source histogram and the average rating.
`unrated_count` is `len(df) - len(rated)`, and `avg_quality` reproduces the
Python truthiness quirk `round(avg, 1) if avg_quality else None`. -/
def MediaDatabase.stats (db : MediaDatabase) : Stats :=
  if db.assets.length = 0 then
    { total_assets := 0, images := 0, videos := 0, total_size_mb := 0.0,
      sources := [], avg_quality := none, rated_count := 0, unrated_count := 0 }
  else
    let images := db.assets.filter (fun a => decide (a.media_type = "image"))
    let videos := db.assets.filter (fun a => decide (a.media_type = "video"))
    let total_size : Int := (db.assets.map (fun a => a.file_size_bytes.getD 0)).sum
    let rated := db.assets.filter (fun a => a.quality_rating.isSome)
    let avg : Float :=
      Float.ofInt (rated.map (fun a => a.quality_rating.getD 0)).sum / Float.ofNat rated.length
    { total_assets := db.assets.length
      images := images.length
      videos := videos.length
      total_size_mb := round2 (Float.ofInt total_size / (1024 * 1024))
      sources := histogram (db.assets.map (fun a => a.source))
      avg_quality :=
        if rated.length = 0 then none
        else if avg == 0.0 then none else some (round1 avg)
      rated_count := rated.length
      unrated_count := db.assets.length - rated.length }

/-- The mutating operations a caller can run against the store (the ones the
reachability claims quantify over). -/
inductive Op where
  | addImage (path src : String) (args : IngestArgs)
  | addVideo (path src : String) (args : IngestArgs)
  | rateAsset (id : String) (rating : Int) (notes : Option String)
  | assignEpisode (id : String) (episode : Int)

/-- Run one operation against the state; a raised exception leaves the state
unchanged (each of the four methods raises, when it raises, before its
table write). -/
def applyOp (env : MediaEnv) (db : MediaDatabase) : Op → MediaDatabase
  | .addImage p src args =>
    match db.add_image env p src args with
    | .ok r => r.2
    | .error _ => db
  | .addVideo p src args =>
    match db.add_video env p src args with
    | .ok r => r.2
    | .error _ => db
  | .rateAsset i r notes =>
    match db.rate_asset i r notes with
    | .ok d => d
    | .error _ => db
  | .assignEpisode i e =>
    match db.assign_to_episode i e with
    | .ok d => d
    | .error _ => db

/-- A reachable state: the result of a sequence of operations from the empty
store. -/
def runOps (env : MediaEnv) (ops : List Op) : MediaDatabase :=
  ops.foldl (applyOp env) MediaDatabase.empty

/-- Errors at the HTTP boundary (`media_api.py`): an `HTTPException` with a
status code and a detail string. -/
inductive ApiErr where
  | http (status : Nat) (detail : String)

/-- The `/asset/assign-episode` handler of `media_api.py`: reject an episode
outside `[1, 8]` with HTTP 400 before calling the store; translate the
store's `ValueError` into HTTP 404. -/
def assign_episode_api (db : MediaDatabase) (asset_id : String)
    (episode : Int) : Except ApiErr MediaDatabase :=
  if 1 ≤ episode ∧ episode ≤ 8 then
    match db.assign_to_episode asset_id episode with
    | .ok d => .ok d
    | .error (.valueError msg) => .error (.http 404 msg)
    | .error (.fileNotFound msg) => .error (.http 404 msg)
    | .error (.externalError msg) => .error (.http 404 msg)
  else .error (.http 400 "Episode must be 1-8")

/-! Concrete collaborator environments used to evaluate the operations on
concrete inputs. -/

/-- A benign environment: every path exists with bytes `[7]`, every image
decodes as 1×1, video thumbnail extraction always fails (exercising the
zero-embedding fallback), ids are the stream `id0, id1, …`. -/
def envT : MediaEnv :=
  { readFile := fun _ => some [7]
    decodeImage := fun _ => some (1, 1)
    encodeImage := fun _ => List.replicate 512 (0.0 : Float)
    extractThumbnail := fun _ => none
    probeDuration := fun _ => none
    listDir := fun _ _ => some []
    genId := fun n => "id" ++ toString n
    now := "2026-01-01T00:00:00" }

/-- An environment for directory import: the directory holds two images and
one non-media file, and the bytes of `b.png` (namely `[9]`) are corrupt —
PIL cannot decode them. -/
def envC5 : MediaEnv :=
  { envT with
    readFile := fun p => if p = "b.png" then some [9] else some [7]
    decodeImage := fun b => if b = [9] then none else some (1, 1)
    listDir := fun _ _ => some ["a.png", "b.png", "c.txt"] }

/-! Helper lemmas about the store. -/

/-- The tagged-union invariant of one row, as a decidable check: the
`media_type` tag is `image` or `video`, and exactly the matching content
field is present. -/
def contentExclusive (a : MediaAsset) : Bool :=
  (a.media_type == "image" && a.image.isSome && a.video.isNone) ||
  (a.media_type == "video" && a.video.isSome && a.image.isNone)

lemma contentExclusive_media {a : MediaAsset} (h : contentExclusive a = true) :
    a.media_type = "image" ∨ a.media_type = "video" := by
  simp only [contentExclusive, Bool.or_eq_true, Bool.and_eq_true, beq_iff_eq] at h
  rcases h with ⟨⟨h, _⟩, _⟩ | ⟨⟨h, _⟩, _⟩
  · exact Or.inl h
  · exact Or.inr h

lemma add_image_ok {db : MediaDatabase} {env : MediaEnv} {p src : String}
    {args : IngestArgs} {r : String × MediaDatabase}
    (h : db.add_image env p src args = .ok r) :
    ∃ a, r.2.assets = db.assets ++ [a] ∧ contentExclusive a = true := by
  unfold MediaDatabase.add_image at h
  cases hf : env.readFile p with
  | none => rw [hf] at h; exact absurd h (by simp)
  | some b =>
    rw [hf] at h
    dsimp only at h
    cases hd : env.decodeImage b with
    | none => rw [hd] at h; exact absurd h (by simp)
    | some wh =>
      rw [hd] at h
      dsimp only at h
      cases h
      exact ⟨_, rfl, rfl⟩

lemma add_video_ok {db : MediaDatabase} {env : MediaEnv} {p src : String}
    {args : IngestArgs} {r : String × MediaDatabase}
    (h : db.add_video env p src args = .ok r) :
    ∃ a, r.2.assets = db.assets ++ [a] ∧ contentExclusive a = true := by
  unfold MediaDatabase.add_video at h
  cases hf : env.readFile p with
  | none => rw [hf] at h; exact absurd h (by simp)
  | some b =>
    rw [hf] at h
    dsimp only at h
    cases ht : env.extractThumbnail p with
    | none =>
      rw [ht] at h
      dsimp only at h
      cases h
      exact ⟨_, rfl, rfl⟩
    | some tb =>
      rw [ht] at h
      dsimp only at h
      cases hd : env.decodeImage tb with
      | none => rw [hd] at h; exact absurd h (by simp)
      | some wh =>
        rw [hd] at h
        dsimp only at h
        cases h
        exact ⟨_, rfl, rfl⟩

lemma contentExclusive_rate {db d : MediaDatabase} {i : String} {r : Int}
    {notes : Option String} (h : db.rate_asset i r notes = .ok d)
    (hinv : ∀ a ∈ db.assets, contentExclusive a = true) :
    ∀ a ∈ d.assets, contentExclusive a = true := by
  unfold MediaDatabase.rate_asset at h
  split at h
  · cases h
    intro a ha
    simp only [List.mem_map] at ha
    obtain ⟨b, hb, rfl⟩ := ha
    have hcb := hinv b hb
    by_cases hid : b.id = i
    · rw [if_pos hid]; exact hcb
    · rw [if_neg hid]; exact hcb
  · exact absurd h (by simp)

lemma contentExclusive_assign {db d : MediaDatabase} {i : String} {e : Int}
    (h : db.assign_to_episode i e = .ok d)
    (hinv : ∀ a ∈ db.assets, contentExclusive a = true) :
    ∀ a ∈ d.assets, contentExclusive a = true := by
  unfold MediaDatabase.assign_to_episode at h
  cases hh : (db.assets.filter (fun b => decide (b.id = i))).head? with
  | none => rw [hh] at h; exact absurd h (by simp)
  | some a0 =>
    rw [hh] at h
    dsimp only at h
    split at h
    · cases h; exact hinv
    · cases h
      intro a ha
      simp only [List.mem_map] at ha
      obtain ⟨b, hb, rfl⟩ := ha
      have hcb := hinv b hb
      by_cases hid : b.id = i
      · rw [if_pos hid]; exact hcb
      · rw [if_neg hid]; exact hcb

lemma applyOp_contentExclusive (env : MediaEnv) (db : MediaDatabase) (op : Op)
    (hinv : ∀ a ∈ db.assets, contentExclusive a = true) :
    ∀ a ∈ (applyOp env db op).assets, contentExclusive a = true := by
  cases op with
  | addImage p src args =>
    cases hr : db.add_image env p src args with
    | error e => simp only [applyOp, hr]; exact hinv
    | ok r =>
      simp only [applyOp, hr]
      obtain ⟨a, ha, hc⟩ := add_image_ok hr
      intro b hb
      rw [ha] at hb
      rcases List.mem_append.mp hb with hb | hb
      · exact hinv b hb
      · rw [List.mem_singleton] at hb; subst hb; exact hc
  | addVideo p src args =>
    cases hr : db.add_video env p src args with
    | error e => simp only [applyOp, hr]; exact hinv
    | ok r =>
      simp only [applyOp, hr]
      obtain ⟨a, ha, hc⟩ := add_video_ok hr
      intro b hb
      rw [ha] at hb
      rcases List.mem_append.mp hb with hb | hb
      · exact hinv b hb
      · rw [List.mem_singleton] at hb; subst hb; exact hc
  | rateAsset i r notes =>
    cases hr : db.rate_asset i r notes with
    | error e => simp only [applyOp, hr]; exact hinv
    | ok d => simp only [applyOp, hr]; exact contentExclusive_rate hr hinv
  | assignEpisode i e =>
    cases hr : db.assign_to_episode i e with
    | error e => simp only [applyOp, hr]; exact hinv
    | ok d => simp only [applyOp, hr]; exact contentExclusive_assign hr hinv

lemma foldl_contentExclusive (env : MediaEnv) :
    ∀ (ops : List Op) (db : MediaDatabase),
      (∀ a ∈ db.assets, contentExclusive a = true) →
      ∀ a ∈ (ops.foldl (applyOp env) db).assets, contentExclusive a = true := by
  intro ops
  induction ops with
  | nil => intro db h; simpa using h
  | cons op t ih =>
    intro db h
    rw [List.foldl_cons]
    exact ih _ (applyOp_contentExclusive env db op h)

/-- Every asset of a reachable store state satisfies the tagged-union
invariant. -/
lemma runOps_contentExclusive (env : MediaEnv) (ops : List Op) :
    ∀ a ∈ (runOps env ops).assets, contentExclusive a = true :=
  foldl_contentExclusive env ops MediaDatabase.empty
    (fun a ha => absurd ha (List.not_mem_nil a))

lemma head?_filter_eq_some {l : List MediaAsset} {p : MediaAsset → Bool}
    {a : MediaAsset} (h : (l.filter p).head? = some a) : a ∈ l ∧ p a = true := by
  induction l with
  | nil => exact absurd h (by simp)
  | cons b t ih =>
    rw [List.filter_cons] at h
    by_cases hb : p b
    · rw [if_pos hb] at h
      rw [List.head?_cons, Option.some.injEq] at h
      subst h
      exact ⟨List.mem_cons_self b t, hb⟩
    · rw [if_neg hb] at h
      obtain ⟨hmem, hpa⟩ := ih h
      exact ⟨List.mem_cons_of_mem b hmem, hpa⟩

lemma filter_map_head? (f : MediaAsset → MediaAsset)
    (hf : ∀ b, (f b).id = b.id) (i : String) (l : List MediaAsset) :
    ((l.map f).filter (fun b => decide (b.id = i))).head?
      = ((l.filter (fun b => decide (b.id = i))).head?).map f := by
  induction l with
  | nil => rfl
  | cons b t ih =>
    rw [List.map_cons, List.filter_cons, List.filter_cons]
    by_cases hb : b.id = i
    · have hfb : (f b).id = i := by rw [hf b]; exact hb
      simp [hb, hfb]
    · have hfb : ¬ (f b).id = i := by rw [hf b]; exact hb
      simp [hb, hfb, ih]

lemma map_id_of_eq {α : Type} (l : List α) (f : α → α)
    (h : ∀ a ∈ l, f a = a) : l.map f = l := by
  induction l with
  | nil => rfl
  | cons b t ih =>
    rw [List.map_cons, h b (List.mem_cons_self b t),
      ih (fun a ha => h a (List.mem_cons_of_mem b ha))]

lemma length_filter_media (l : List MediaAsset)
    (h : ∀ a ∈ l, a.media_type = "image" ∨ a.media_type = "video") :
    (l.filter (fun a => decide (a.media_type = "image"))).length
      + (l.filter (fun a => decide (a.media_type = "video"))).length
      = l.length := by
  induction l with
  | nil => rfl
  | cons b t ih =>
    have hb := h b (List.mem_cons_self b t)
    have ih' := ih (fun a ha => h a (List.mem_cons_of_mem b ha))
    rw [List.filter_cons, List.filter_cons]
    rcases hb with hb | hb
    · have h2 : ¬ b.media_type = "video" := by rw [hb]; decide
      simp [hb, h2]
      omega
    · have h2 : ¬ b.media_type = "image" := by rw [hb]; decide
      simp [hb, h2]
      omega

/-- `assign_to_episode` characterized through `get_asset`. -/
lemma assign_to_episode_eq (db : MediaDatabase) (i : String) (e : Int)
    (a : MediaAsset) (ha : db.get_asset i = some a) :
    db.assign_to_episode i e =
      if e ∈ a.episode_assignments then .ok db
      else .ok { db with assets := db.assets.map (fun b =>
        if b.id = i then
          { b with episode_assignments := a.episode_assignments ++ [e] }
        else b) } := by
  unfold MediaDatabase.get_asset at ha
  unfold MediaDatabase.assign_to_episode
  rw [ha]

/-! The claim theorems. -/

/-- C2: for a rating outside `[1, 10]`, `rate_asset` raises the
InvalidArgument-kind `ValueError` with the source's message, and the
database state after the failed operation is unchanged (the check happens
before the table update). -/
theorem rate_asset_invalid_rating_rejected (env : MediaEnv)
    (db : MediaDatabase) (i : String) (r : Int) (notes : Option String)
    (hr : r < 1 ∨ 10 < r) :
    db.rate_asset i r notes
        = .error (.valueError "Rating must be between 1 and 10") ∧
    applyOp env db (Op.rateAsset i r notes) = db := by
  have hcond : ¬ (1 ≤ r ∧ r ≤ 10) := by
    intro hand
    rcases hr with h | h <;> omega
  have h1 : db.rate_asset i r notes
      = .error (.valueError "Rating must be between 1 and 10") := by
    unfold MediaDatabase.rate_asset
    rw [if_neg hcond]
  refine ⟨h1, ?_⟩
  simp only [applyOp, h1]

theorem rate_asset_invalid_rating_rejected_w :
    MediaDatabase.empty.rate_asset "x" 11 none
        = .error (.valueError "Rating must be between 1 and 10") ∧
    applyOp envT MediaDatabase.empty (Op.rateAsset "x" 11 none)
        = MediaDatabase.empty :=
  rate_asset_invalid_rating_rejected envT MediaDatabase.empty "x" 11 none
    (Or.inr (by decide))

/-- C9: a valid rating applied to an id that matches no stored record
raises no error and leaves every record (hence the whole state)
unchanged — the underlying update on an empty match set is a silent
no-op. -/
theorem rate_asset_unknown_id_noop (db : MediaDatabase) (i : String)
    (r : Int) (notes : Option String) (hr : 1 ≤ r ∧ r ≤ 10)
    (hid : ∀ a ∈ db.assets, ¬ a.id = i) :
    db.rate_asset i r notes = .ok db := by
  unfold MediaDatabase.rate_asset
  rw [if_pos hr]
  rw [map_id_of_eq _ _ (fun a ha => if_neg (hid a ha))]

/-- A one-row database used as a concrete input. -/
def asset0 : MediaAsset :=
  { id := "a0", filename := "x.png", image := some [1], video := none,
    thumbnail := none, vector := List.replicate 512 (0.0 : Float),
    source := "press_kit", generation_prompt := none,
    generation_model := none, generation_time_seconds := none,
    generation_cost_usd := none, width := some 1, height := some 1,
    duration_seconds := none, file_size_bytes := some 1,
    format := some "png", media_type := "image", content_type := none,
    subjects := [], style_tags := [], quality_rating := none,
    quality_notes := none, episode_assignments := [], use_count := 0,
    created_at := "2026-01-01T00:00:00", last_used_at := none }

def dbW9 : MediaDatabase := { assets := [asset0], nextId := 1 }

theorem rate_asset_unknown_id_noop_w : dbW9.rate_asset "zzz" 5 none = .ok dbW9 :=
  rate_asset_unknown_id_noop dbW9 "zzz" 5 none (by decide)
    (by
      intro a ha
      rw [show dbW9.assets = [asset0] from rfl, List.mem_singleton] at ha
      subst ha
      decide)

/-- C7: in every reachable store state, every asset has exactly one of the
image/video content fields present, determined by its `media_type` tag. -/
theorem assets_content_exclusive (env : MediaEnv) (ops : List Op) :
    (runOps env ops).assets.all contentExclusive = true := by
  rw [List.all_eq_true]
  exact runOps_contentExclusive env ops

/-- C3: in every reachable store state, `stats()` satisfies
`images + videos = total_assets` and
`rated_count + unrated_count = total_assets`. -/
theorem stats_counts_partition (env : MediaEnv) (ops : List Op) :
    (runOps env ops).stats.images + (runOps env ops).stats.videos
        = (runOps env ops).stats.total_assets ∧
    (runOps env ops).stats.rated_count + (runOps env ops).stats.unrated_count
        = (runOps env ops).stats.total_assets := by
  have hinv := runOps_contentExclusive env ops
  have hmedia : ∀ a ∈ (runOps env ops).assets,
      a.media_type = "image" ∨ a.media_type = "video" :=
    fun a ha => contentExclusive_media (hinv a ha)
  unfold MediaDatabase.stats
  by_cases h0 : (runOps env ops).assets.length = 0
  · rw [if_pos h0]
    exact ⟨rfl, rfl⟩
  · rw [if_neg h0]
    dsimp only
    constructor
    · exact length_filter_media _ hmedia
    · have hle := List.length_filter_le
        (fun a : MediaAsset => a.quality_rating.isSome) (runOps env ops).assets
      omega

/-- A reachable one-asset state: one image ingested through `envT`. -/
def dbC8cx : MediaDatabase := runOps envT [Op.addImage "q.png" "press_kit" defaultArgs]

/-- C8 counterexample: the store-level `assign_to_episode` performs no
episode-range check — assigning episode `0` to a stored asset succeeds and
`0` ends up in the stored `episode_assignments`. -/
theorem assign_out_of_range_stored_cx :
    (dbC8cx.assign_to_episode "id0" 0).map
        (fun d => (d.get_asset "id0").map (fun a => a.episode_assignments))
      = .ok (some [0]) := rfl

/-- C8 (amended): the episode-range validation lives at the HTTP boundary:
the `/asset/assign-episode` handler rejects an episode outside `[1, 8]`
with an InvalidArgument-kind HTTP 400 error before calling the store. -/
theorem assign_episode_api_range_check (db : MediaDatabase) (i : String)
    (e : Int) (he : e < 1 ∨ 8 < e) :
    assign_episode_api db i e = .error (.http 400 "Episode must be 1-8") := by
  unfold assign_episode_api
  rw [if_neg]
  intro hand
  rcases he with h | h <;> omega

theorem assign_episode_api_range_check_w :
    assign_episode_api MediaDatabase.empty "x" 9
      = .error (.http 400 "Episode must be 1-8") :=
  assign_episode_api_range_check MediaDatabase.empty "x" 9 (Or.inr (by decide))

/-- Ingestion arguments carrying a duplicate episode assignment. -/
def argsDup : IngestArgs := { defaultArgs with episode_assignments := some [2, 2] }

/-- A reachable state whose single asset was ingested with the duplicate
episode list `[2, 2]` (ingestion performs no deduplication or range
check). -/
def dbC1cx : MediaDatabase := runOps envT [Op.addImage "p.png" "press_kit" argsDup]

/-- C1 counterexample: on an asset ingested with `episode_assignments
= [2, 2]`, assigning episode `2` (once or twice — the call is a no-op) leaves
a list that contains `2` twice, not exactly once. -/
theorem assign_twice_duplicate_preserved_cx :
    dbC1cx.assign_to_episode "id0" 2 = .ok dbC1cx ∧
    (dbC1cx.get_asset "id0").map (fun a => a.episode_assignments.count 2)
      = some 2 :=
  ⟨rfl, rfl⟩

/-- C1 (amended): for a stored asset whose `episode_assignments` contains
`e` at most once (always the case when assignments were only ever added via
`assign_to_episode`), assigning `e` twice in succession yields the same
stored state as assigning it once, and the stored list then contains `e`
exactly once; no duplicate is ever appended. -/
theorem assign_to_episode_twice_idempotent (db : MediaDatabase) (i : String)
    (e : Int) (a : MediaAsset) (ha : db.get_asset i = some a)
    (hcount : a.episode_assignments.count e ≤ 1) :
    ∃ db1 a1, db.assign_to_episode i e = .ok db1 ∧
      db1.assign_to_episode i e = .ok db1 ∧
      db1.get_asset i = some a1 ∧
      a1.episode_assignments.count e = 1 := by
  have hpred := head?_filter_eq_some (show
    (db.assets.filter (fun b => decide (b.id = i))).head? = some a from ha)
  have hid : a.id = i := of_decide_eq_true hpred.2
  by_cases he : e ∈ a.episode_assignments
  · -- already a member: both calls are no-ops
    have h1 : db.assign_to_episode i e = .ok db := by
      rw [assign_to_episode_eq db i e a ha, if_pos he]
    have hc : a.episode_assignments.count e = 1 := by
      have hpos : 0 < a.episode_assignments.count e := List.count_pos_iff.mpr he
      omega
    exact ⟨db, a, h1, h1, ha, hc⟩
  · -- not a member: the first call appends, the second is a no-op
    set f := fun b : MediaAsset =>
      if b.id = i then
        { b with episode_assignments := a.episode_assignments ++ [e] }
      else b with hfdef
    have hfid : ∀ b, (f b).id = b.id := by
      intro b
      rw [hfdef]
      dsimp only
      split <;> rfl
    set db1 : MediaDatabase := { db with assets := db.assets.map f } with hdb1
    have h1 : db.assign_to_episode i e = .ok db1 := by
      rw [assign_to_episode_eq db i e a ha, if_neg he]
    have hget1 : db1.get_asset i = some (f a) := by
      unfold MediaDatabase.get_asset
      rw [hdb1]
      dsimp only
      rw [filter_map_head? f hfid i db.assets]
      rw [show (db.assets.filter (fun b => decide (b.id = i))).head? = some a from ha]
      rfl
    have hfa : f a = { a with episode_assignments := a.episode_assignments ++ [e] } := by
      rw [hfdef]
      dsimp only
      rw [if_pos hid]
    have hmem1 : e ∈ (f a).episode_assignments := by
      rw [hfa]
      exact List.mem_append.mpr (Or.inr (List.mem_singleton.mpr rfl))
    have h2 : db1.assign_to_episode i e = .ok db1 := by
      rw [assign_to_episode_eq db1 i e (f a) hget1, if_pos hmem1]
    have hc : (f a).episode_assignments.count e = 1 := by
      rw [hfa]
      dsimp only
      rw [List.count_append, List.count_eq_zero_of_not_mem he]
      simp
    exact ⟨db1, f a, h1, h2, hget1, hc⟩

/-- A reachable one-image state used to instantiate C1. -/
def dbW1 : MediaDatabase := runOps envT [Op.addImage "p.png" "press_kit" defaultArgs]

theorem assign_to_episode_twice_idempotent_w :
    ∃ db1 a1, dbW1.assign_to_episode "id0" 3 = .ok db1 ∧
      db1.assign_to_episode "id0" 3 = .ok db1 ∧
      db1.get_asset "id0" = some a1 ∧
      a1.episode_assignments.count 3 = 1 :=
  assign_to_episode_twice_idempotent dbW1 "id0" 3 _ rfl (by decide)

/-- C4: on an existing video file whose frame extraction yields no frame,
`add_video` does not raise: it returns a fresh id and appends a record whose
embedding vector is the all-zero 512-dimensional vector and whose `video`
field holds the file's bytes. -/
theorem add_video_thumbnail_failure_zero_embedding (env : MediaEnv)
    (db : MediaDatabase) (p src : String) (args : IngestArgs) (vb : List Nat)
    (hf : env.readFile p = some vb) (ht : env.extractThumbnail p = none) :
    ∃ id1 db1, db.add_video env p src args = .ok (id1, db1) ∧
      id1 = env.genId db.nextId ∧
      ∃ a, db1.assets = db.assets ++ [a] ∧
        a.vector = List.replicate 512 (0.0 : Float) ∧
        a.video = some vb ∧ a.media_type = "video" := by
  unfold MediaDatabase.add_video
  rw [hf]
  dsimp only
  rw [ht]
  exact ⟨_, _, rfl, rfl, _, rfl, rfl, rfl, rfl⟩

theorem add_video_thumbnail_failure_zero_embedding_w :
    ∃ id1 db1, MediaDatabase.empty.add_video envT "v.mp4" "gamma" defaultArgs
        = .ok (id1, db1) ∧
      id1 = envT.genId 0 ∧
      ∃ a, db1.assets = [] ++ [a] ∧
        a.vector = List.replicate 512 (0.0 : Float) ∧
        a.video = some [7] ∧ a.media_type = "video" :=
  add_video_thumbnail_failure_zero_embedding envT MediaDatabase.empty
    "v.mp4" "gamma" defaultArgs [7] rfl rfl

/-- C6: exporting the asset created by `add_image` on an existing, decodable
image file yields exactly the file's original bytes — content round-trips
unmodified through ingestion and export. -/
theorem add_image_export_roundtrip (env : MediaEnv) (db : MediaDatabase)
    (p src : String) (args : IngestArgs) (bytes : List Nat) (wh : Int × Int)
    (hf : env.readFile p = some bytes) (hd : env.decodeImage bytes = some wh)
    (hfresh : ∀ b ∈ db.assets, ¬ b.id = env.genId db.nextId) :
    ∃ id1 db1, db.add_image env p src args = .ok (id1, db1) ∧
      db1.export_asset id1 = .ok bytes := by
  unfold MediaDatabase.add_image
  rw [hf]
  dsimp only
  rw [hd]
  dsimp only
  refine ⟨_, _, rfl, ?_⟩
  unfold MediaDatabase.export_asset MediaDatabase.get_asset
  dsimp only
  rw [List.filter_append]
  have hnil : db.assets.filter
      (fun b => decide (b.id = env.genId db.nextId)) = [] := by
    rw [List.filter_eq_nil_iff]
    intro b hb
    simp [hfresh b hb]
  rw [hnil]
  simp

theorem add_image_export_roundtrip_w :
    ∃ id1 db1, MediaDatabase.empty.add_image envT "hero.png" "press_kit"
        defaultArgs = .ok (id1, db1) ∧
      db1.export_asset id1 = .ok [7] :=
  add_image_export_roundtrip envT MediaDatabase.empty "hero.png" "press_kit"
    defaultArgs [7] (1, 1) rfl rfl
    (fun b hb => absurd hb (List.not_mem_nil b))

lemma importStep_fst (env : MediaEnv) (src : String) (ct : Option String)
    (subj st : Option (List String)) (acc : Nat × MediaDatabase) (f : String) :
    (importStep env src ct subj st acc f).1
      = if ingestOk env f then acc.1 + 1 else acc.1 := by
  unfold importStep ingestOk
  by_cases h1 : importSuffix f ∈ image_extensions
  · rw [if_pos h1, if_pos h1]
    unfold MediaDatabase.add_image
    cases hf : env.readFile f with
    | none => rfl
    | some b =>
      dsimp only
      cases hd : env.decodeImage b with
      | none => rfl
      | some wh => rfl
  · rw [if_neg h1, if_neg h1]
    by_cases h2 : importSuffix f ∈ video_extensions
    · rw [if_pos h2, if_pos h2]
      unfold MediaDatabase.add_video
      cases hf : env.readFile f with
      | none => rfl
      | some b =>
        dsimp only
        cases ht : env.extractThumbnail f with
        | none => rfl
        | some tb =>
          dsimp only
          cases hd : env.decodeImage tb with
          | none => rfl
          | some wh => rfl
    · rw [if_neg h2, if_neg h2]
      rfl

lemma importGo_fst (env : MediaEnv) (src : String) (ct : Option String)
    (subj st : Option (List String)) :
    ∀ (files : List String) (acc : Nat × MediaDatabase),
      (importGo env src ct subj st files acc).1
        = acc.1 + (files.filter (fun f => ingestOk env f)).length := by
  intro files
  induction files with
  | nil => intro acc; simp [importGo]
  | cons f t ih =>
    intro acc
    rw [importGo, ih (importStep env src ct subj st acc f), importStep_fst,
      List.filter_cons]
    by_cases hOk : ingestOk env f
    · rw [if_pos hOk, if_pos (by rw [hOk])]
      rw [List.length_cons]
      omega
    · rw [if_neg hOk]
      rw [if_neg (by rw [Bool.not_eq_true] at hOk; rw [hOk]; decide)]

/-- C5: when the directory exists, `import_directory` never aborts: every
per-file ingestion failure is caught and skipped, and the returned count is
exactly the number of candidate files whose ingestion succeeded — at most
the number of candidate files. -/
theorem import_directory_counts_successes (env : MediaEnv)
    (db : MediaDatabase) (d src : String) (recursive : Bool)
    (ct : Option String) (subj st : Option (List String))
    (files : List String) (h : env.listDir d recursive = some files) :
    ∃ db1, db.import_directory env d src recursive ct subj st
        = .ok ((files.filter (fun f => ingestOk env f)).length, db1) ∧
      (files.filter (fun f => ingestOk env f)).length ≤ files.length := by
  unfold MediaDatabase.import_directory
  rw [h]
  dsimp only
  refine ⟨(importGo env src ct subj st files (0, db)).2, ?_,
    List.length_filter_le _ _⟩
  have h2 : importGo env src ct subj st files (0, db)
      = ((files.filter (fun f => ingestOk env f)).length,
         (importGo env src ct subj st files (0, db)).2) := by
    have h1 := importGo_fst env src ct subj st files (0, db)
    rw [Nat.zero_add] at h1
    exact Prod.ext h1 rfl
  rw [h2]

theorem import_directory_counts_successes_w :
    ∃ db1, MediaDatabase.empty.import_directory envC5 "d" "midjourney" true
        none none none = .ok (1, db1) := by
  obtain ⟨db1, h1, h2⟩ := import_directory_counts_successes envC5
    MediaDatabase.empty "d" "midjourney" true none none none
    ["a.png", "b.png", "c.txt"] rfl
  refine ⟨db1, ?_⟩
  rw [h1]
  have h3 : (["a.png", "b.png", "c.txt"].filter
      (fun f => ingestOk envC5 f)).length = 1 := by decide
  rw [h3]

/-- C10: `get_asset` on an id matching no stored record returns `None`
rather than raising, hence `get_image_bytes` and `get_video_bytes` return
`None` for an unknown id; and on a stored video asset `get_image_bytes`
returns the asset's null `image` field, i.e. `None`. -/
theorem get_asset_missing_and_video_image_none (env : MediaEnv)
    (ops : List Op) (i : String) :
    ((∀ a ∈ (runOps env ops).assets, ¬ a.id = i) →
      (runOps env ops).get_asset i = none ∧
      (runOps env ops).get_image_bytes i = none ∧
      (runOps env ops).get_video_bytes i = none) ∧
    (∀ a, (runOps env ops).get_asset i = some a → a.media_type = "video" →
      (runOps env ops).get_image_bytes i = none) := by
  constructor
  · intro hmiss
    have hnil : (runOps env ops).assets.filter
        (fun b => decide (b.id = i)) = [] := by
      rw [List.filter_eq_nil_iff]
      intro b hb
      simp [hmiss b hb]
    have hget : (runOps env ops).get_asset i = none := by
      unfold MediaDatabase.get_asset
      rw [hnil]
      rfl
    refine ⟨hget, ?_, ?_⟩
    · unfold MediaDatabase.get_image_bytes
      rw [hget]
    · unfold MediaDatabase.get_video_bytes
      rw [hget]
  · intro a hget hvid
    have hmem := (head?_filter_eq_some (show
      ((runOps env ops).assets.filter (fun b => decide (b.id = i))).head?
        = some a from hget)).1
    have hc := runOps_contentExclusive env ops a hmem
    have himg : a.image = none := by
      simp only [contentExclusive, Bool.or_eq_true, Bool.and_eq_true,
        beq_iff_eq, Option.isNone_iff_eq_none] at hc
      rcases hc with ⟨⟨h1, _⟩, _⟩ | ⟨_, h3⟩
      · rw [hvid] at h1
        exact absurd h1 (by decide)
      · exact h3
    unfold MediaDatabase.get_image_bytes
    rw [hget]
    exact himg

theorem get_asset_missing_and_video_image_none_w :
    ((runOps envT []).get_asset "zzz" = none ∧
     (runOps envT []).get_image_bytes "zzz" = none ∧
     (runOps envT []).get_video_bytes "zzz" = none) ∧
    (runOps envT [Op.addVideo "v.mp4" "gamma" defaultArgs]).get_image_bytes
        "id0" = none := by
  constructor
  · exact (get_asset_missing_and_video_image_none envT [] "zzz").1
      (fun a ha => absurd ha (List.not_mem_nil a))
  · exact (get_asset_missing_and_video_image_none envT
      [Op.addVideo "v.mp4" "gamma" defaultArgs] "id0").2 _ rfl rfl
